import Mathlib

/-!
# A leveled logger and its propagation through request contexts

Shallow embedding of `logger.go` (package `logger`).

Conventions of the embedding:

* `Level` is Go's `type Level int`; only comparisons are performed on it, so it
  is modelled by `Int` (every 64-bit value is an `Int`, no arithmetic can
  overflow).
* An `io.Writer` interface value is `Option Writer`: `none` is the nil
  interface, `some w` a sink.  The content of a sink is the text handed to its
  `Write` method so far.
* The receiver `l *logger` is passed explicitly: setters return the new field
  values, `log` returns the new sink contents.  The mutex field does not appear:
  the embedding is sequential, every method body runs atomically.
* A call that panics in Go (a method call on a nil interface, a nil parent
  given to `context.WithValue`, ...) returns `none`.
* The reading of the clock, `time.Now()`, is an input of `log`; the timestamp
  is computed from it as in the source, by `UTC()` and `Format(time.RFC3339)`.
  A `time.Time` is an instant in seconds since the Unix epoch together with the
  offset east of UTC in effect in its location; the layout `time.RFC3339` has
  no sub-second element, so the nanoseconds are left out.
-/

namespace Logger

/-! ## Levels -/

/-- Go's `type Level int`. -/
abbrev Level := Int

def LevelInfo : Level := 1
def LevelWarn : Level := 2
def LevelError : Level := 3

/-- Method `func (l Level) String() string`. -/
def Level.String (l : Level) : String :=
  if l = LevelInfo then "INFO"
  else if l = LevelWarn then "WARN"
  else if l = LevelError then "ERROR"
  else "UNKNOWN"

/-! ## Sinks -/

/-- A non-nil `io.Writer`: standard output or any other destination. -/
inductive Writer where
  | stdout
  | sink (id : Nat)
  deriving DecidableEq, Repr

/-- The text each sink has received so far. -/
abbrev Sinks := Writer → String

/-- The sinks after `text` is written to `d`: appended to the content of `d`,
every other sink untouched. -/
def appendTo (out : Sinks) (d : Writer) (text : String) : Sinks :=
  fun x => if x = d then out x ++ text else out x

/-- Behaviour of `fmt.Fprintf(w, ...)` once the operands are formatted into `text`:
one `Write` of the whole text on `w`; a nil `w` panics. -/
def Fprintf (w : Option Writer) (out : Sinks) (text : String) : Option Sinks :=
  match w with
  | none => none
  | some d => some (appendTo out d text)

/-- Expansion of the format string `"%s [%s] %s\n"` on three string operands. -/
def formatLine (timestamp name msg : String) : String :=
  timestamp ++ " [" ++ name ++ "] " ++ msg ++ "\n"

/-! ## Contexts -/

/-- Keys of context values: the package variable `ctxKey` and all other keys. -/
inductive Key where
  | ctxKey
  | other (id : Nat)
  deriving DecidableEq, Repr

/-- Identity of the object behind a non-nil `Logger` interface value. -/
structure Ptr where
  addr : Nat
  deriving DecidableEq, Repr

/-- A value of the interface type `Logger`; `none` is nil. -/
abbrev LoggerIface := Option Ptr

/-- A value of type `any` stored in a context: nil, a value whose dynamic type
implements `Logger`, or a value of some other type. -/
inductive Value where
  | nil
  | logger (p : Ptr)
  | other (id : Nat)
  deriving DecidableEq, Repr

/-- A non-nil `context.Context`: the root, a node made by `context.WithValue`,
or a node made by `WithCancel`, `WithDeadline` or `WithTimeout`. -/
inductive Context where
  | background
  | valueCtx (parent : Context) (key : Key) (val : Value)
  | cancelCtx (parent : Context)
  deriving DecidableEq, Repr

/-- Method `Value(key)` of a context: the nearest value stored under `key`. -/
def Context.Value : Context → Key → Value
  | .background, _ => .nil
  | .valueCtx parent k v, key => if k = key then v else parent.Value key
  | .cancelCtx parent, key => parent.Value key

/-- Function `context.WithValue(parent, key, val)`: panics on a nil parent. -/
def WithValue (parent : Option Context) (key : Key) (val : Value) : Option (Option Context) :=
  match parent with
  | none => none
  | some c => some (some (.valueCtx c key val))

/-! ## Time (package `time` of the standard library, as far as `log` uses it) -/

/-- A `time.Time`: the instant, in seconds since 1970-01-01T00:00:00Z, and the
offset in seconds east of UTC in effect at that instant in the location of the
time (zero for UTC). -/
structure Time where
  sec : Int
  offset : Int
  deriving DecidableEq, Repr

/-- Method `(Time).UTC`: the same instant with the location set to UTC. -/
def Time.UTC (t : Time) : Time :=
  { t with offset := 0 }

/-- Seconds from 1970-01-01T00:00:00 to the date and hour that a clock in the
location of the time shows at the instant. -/
def Time.localSec (t : Time) : Int :=
  t.sec + t.offset

/-- A calendar date. -/
structure Date where
  year : Int
  month : Int
  day : Int
  deriving DecidableEq, Repr

/-- Date, in the proleptic Gregorian calendar that package `time` uses, of the
day that lies `days` days after 1970-01-01. -/
def civil (days : Int) : Date :=
  let z := days + 719468
  let era := z / 146097
  let doe := z % 146097
  let yoe := (doe - doe / 1460 + doe / 36524 - doe / 146096) / 365
  let doy := doe - (365 * yoe + yoe / 4 - yoe / 100)
  let mp := (5 * doy + 2) / 153
  let day := doy - (153 * mp + 2) / 5 + 1
  let month := if mp < 10 then mp + 3 else mp - 9
  let year := yoe + era * 400 + (if month ≤ 2 then 1 else 0)
  { year := year, month := month, day := day }

/-- Function `appendInt(b, x, width)` of package `time`: the decimal form of `x`,
zero-padded to `width` digits, after a minus sign when `x` is negative. -/
def appendInt (x : Int) (width : Nat) : String :=
  let digits := Nat.toDigits 10 x.natAbs
  String.mk ((if x < 0 then ['-'] else []) ++
    (List.replicate (width - digits.length) '0' ++ digits))

/-- Elements of a layout, under the names package `time` gives them; `text` is a
run of characters copied as it is. -/
inductive Chunk where
  | stdLongYear
  | stdZeroMonth
  | stdZeroDay
  | stdHour
  | stdZeroMinute
  | stdZeroSecond
  | stdISO8601ColonTZ
  | text (s : String)
  deriving DecidableEq, Repr

/-- Constant `time.RFC3339 = "2006-01-02T15:04:05Z07:00"`, as the sequence of
elements `Format` reads in it. -/
def RFC3339 : List Chunk :=
  [.stdLongYear, .text "-", .stdZeroMonth, .text "-", .stdZeroDay, .text "T",
    .stdHour, .text ":", .stdZeroMinute, .text ":", .stdZeroSecond, .stdISO8601ColonTZ]

/-- Text that `Format` writes for one element of the layout. -/
def Time.appendChunk (t : Time) : Chunk → String
  | .stdLongYear => appendInt (civil (t.localSec / 86400)).year 4
  | .stdZeroMonth => appendInt (civil (t.localSec / 86400)).month 2
  | .stdZeroDay => appendInt (civil (t.localSec / 86400)).day 2
  | .stdHour => appendInt (t.localSec % 86400 / 3600) 2
  | .stdZeroMinute => appendInt (t.localSec % 86400 % 3600 / 60) 2
  | .stdZeroSecond => appendInt (t.localSec % 86400 % 60) 2
  | .stdISO8601ColonTZ =>
    if t.offset = 0 then "Z"
    else
      let zone := Int.tdiv t.offset 60
      (if zone < 0 then "-" else "+") ++ appendInt (Int.tdiv zone.natAbs 60) 2 ++ ":" ++
        appendInt (Int.tmod zone.natAbs 60) 2
  | .text s => s

/-- Method `(Time).Format(layout)`. -/
def Time.Format (t : Time) : List Chunk → String
  | [] => ""
  | c :: cs => t.appendChunk c ++ t.Format cs

/-! ## The logger -/

/-- Fields `writer` and `level` of `type logger struct`. -/
structure logger where
  writer : Option Writer
  level : Level
  deriving DecidableEq, Repr

/-- Function `NewLogger`. -/
def NewLogger : logger :=
  { writer := some Writer.stdout, level := LevelInfo }

/-- Method `SetWriter`. -/
def SetWriter (l : logger) (w : Option Writer) : logger :=
  if w = none then { l with writer := some Writer.stdout }
  else { l with writer := w }

/-- Method `SetLevel`. -/
def SetLevel (l : logger) (level : Level) : logger :=
  let level := if level < LevelInfo then LevelInfo else level
  let level := if level > LevelError then LevelError else level
  { l with level := level }

/-- Method `log`: the context argument is ignored; `now` is what `time.Now()`
returns during the call. -/
def log (l : logger) (out : Sinks) (_ctx : Option Context) (now : Time)
    (level : Level) (msg : String) : Option Sinks :=
  if level < l.level then some out
  else
    let timestamp := Time.Format (Time.UTC now) RFC3339
    Fprintf l.writer out (formatLine timestamp (Level.String level) msg)

/-- Method `Info`. -/
def Info (l : logger) (out : Sinks) (ctx : Option Context) (now : Time) (msg : String) :
    Option Sinks :=
  log l out ctx now LevelInfo msg

/-- Method `Warn`. -/
def Warn (l : logger) (out : Sinks) (ctx : Option Context) (now : Time) (msg : String) :
    Option Sinks :=
  log l out ctx now LevelWarn msg

/-- Method `Error`. -/
def Error (l : logger) (out : Sinks) (ctx : Option Context) (now : Time) (msg : String) :
    Option Sinks :=
  log l out ctx now LevelError msg

/-! ## Call sequences on one logger -/

/-- A call of one of the five methods of the interface `Logger`; an emitting
call carries the reading of the clock during it. -/
inductive Call where
  | Info (ctx : Option Context) (now : Time) (msg : String)
  | Warn (ctx : Option Context) (now : Time) (msg : String)
  | Error (ctx : Option Context) (now : Time) (msg : String)
  | SetWriter (w : Option Writer)
  | SetLevel (level : Level)
  deriving DecidableEq, Repr

/-- A logger together with the sinks of the process. -/
structure State where
  l : logger
  out : Sinks

/-- Effect of one method call on the logger and the sinks. -/
def step (s : State) : Call → Option State
  | .Info ctx now msg => (Info s.l s.out ctx now msg).map (fun o => { s with out := o })
  | .Warn ctx now msg => (Warn s.l s.out ctx now msg).map (fun o => { s with out := o })
  | .Error ctx now msg => (Error s.l s.out ctx now msg).map (fun o => { s with out := o })
  | .SetWriter w => some { s with l := SetWriter s.l w }
  | .SetLevel level => some { s with l := SetLevel s.l level }

/-- Effect of a finite sequence of method calls, in order. -/
def run (s : State) : List Call → Option State
  | [] => some s
  | c :: cs => (step s c).bind (fun s' => run s' cs)

/-- The call changes the level threshold. -/
def Call.isSetLevel : Call → Bool
  | .SetLevel _ => true
  | _ => false

/-! ## Propagation through contexts -/

/-- Package variable `defaultLogger = NewLogger()`: the first logger allocated. -/
def defaultLogger : LoggerIface := some ⟨0⟩

/-- Conversion of a `Logger` interface value to `any`. -/
def LoggerIface.toValue : LoggerIface → Value
  | none => .nil
  | some p => .logger p

/-- Type assertion `v.(Logger)` in its two-result form. -/
def assertLogger : Value → LoggerIface × Bool
  | .logger p => (some p, true)
  | _ => (none, false)

/-- Function `WithLogger`. -/
def WithLogger (ctx : Option Context) (logger : LoggerIface) : Option (Option Context) :=
  if logger = none then some ctx
  else WithValue ctx Key.ctxKey (LoggerIface.toValue logger)

/-- Function `FromContext`. -/
def FromContext (ctx : Option Context) : LoggerIface :=
  match ctx with
  | none => defaultLogger
  | some c =>
    let (logger, ok) := assertLogger (c.Value Key.ctxKey)
    if ok && logger != none then logger else defaultLogger

/-! ## Request handlers -/

/-- A non-nil `*http.Request`: its context field and the rest of the request. -/
structure Request where
  ctx : Option Context
  rest : String
  deriving DecidableEq, Repr

/-- Method `(*http.Request).Context`: the background context when the field is nil. -/
def Request.Context (r : Request) : Option Logger.Context :=
  if r.ctx ≠ none then r.ctx else some .background

/-- Method `(*http.Request).WithContext`: a copy with the context replaced; panics on nil. -/
def Request.WithContext (r : Request) (ctx : Option Logger.Context) : Option Request :=
  match ctx with
  | none => none
  | some c => some { r with ctx := some c }

/-- An `http.ResponseWriter`. -/
structure ResponseWriter where
  id : Nat
  deriving DecidableEq, Repr

/-- A `func(http.ResponseWriter, *http.Request)` acting on a state of type `σ`. -/
abbrev HandlerFunc (σ : Type) := ResponseWriter → Request → σ → Option σ

/-- Function `HandlerWithLogger`. -/
def HandlerWithLogger {σ : Type} (logger : LoggerIface) (handler : HandlerFunc σ) :
    HandlerFunc σ :=
  fun w r st =>
    (WithLogger r.Context logger).bind fun ctx =>
      (r.WithContext ctx).bind fun r' =>
        handler w r' st

/-! ## Lines -/

/-- The text is exactly one line: it ends with a newline and has no other. -/
def oneLine (t : String) : Prop :=
  t.data.getLast? = some '\n' ∧ t.data.count '\n' = 1

instance (t : String) : Decidable (oneLine t) := by
  unfold oneLine; infer_instance

/-- RFC 3339 `date-time` of an instant in UTC, written after the grammar of the
RFC: `full-date "T" partial-time "Z"`, that is year, month and day of the
instant in UTC separated by `-`, then `T`, then hour, minute and second
separated by `:`, then `Z`; every field is in decimal with leading zeros, up to
four digits for the year and two for every other field.  The instant is given
in seconds since 1970-01-01T00:00:00Z. -/
def rfc3339UTC (sec : Int) : String :=
  let date := civil (sec / 86400)
  let secs := sec % 86400
  appendInt date.year 4 ++ "-" ++ appendInt date.month 2 ++ "-" ++ appendInt date.day 2 ++ "T" ++
    appendInt (secs / 3600) 2 ++ ":" ++ appendInt (secs % 3600 / 60) 2 ++ ":" ++
    appendInt (secs % 60) 2 ++ "Z"

/-- The state is one in which `SetLevel(level)` was the last level change: it is
reached from a logger on which `SetLevel(level)` has just been called, by calls
none of which is `SetLevel`. -/
def AfterSetLevel (level : Level) (s : State) : Prop :=
  ∃ (l0 : logger) (out0 : Sinks) (calls : List Call),
    (∀ c ∈ calls, Call.isSetLevel c = false) ∧
      run { l := SetLevel l0 level, out := out0 } calls = some s

/-- The threshold lies between INFO and ERROR and the sink is not nil. -/
def Valid (l : logger) : Prop :=
  LevelInfo ≤ l.level ∧ l.level ≤ LevelError ∧ l.writer ≠ none

/-! ## States used in the examples -/

/-- A state for the examples: a new logger set to WARN, writing to sink 0, on
which a warning was emitted. -/
def warnState : State :=
  { l := { writer := some (Writer.sink 0), level := LevelWarn },
    out := appendTo (fun _ => "") (Writer.sink 0) "2024-01-15T10:30:00Z [WARN] disk\n" }

/-- A new logger on which `SetLevel(INFO)` was called, all sinks empty. -/
def infoState : State :=
  { l := SetLevel NewLogger LevelInfo, out := fun _ => "" }

/-! # Theorems -/

/-! ## Auxiliary facts -/

theorem SetLevel_level_of_mem (l : logger) (level : Level)
    (h : level = LevelInfo ∨ level = LevelWarn ∨ level = LevelError) :
    (SetLevel l level).level = level := by
  rcases h with h | h | h <;> subst h <;> simp [SetLevel, LevelInfo, LevelWarn, LevelError]

theorem SetWriter_level (l : logger) (w : Option Writer) : (SetWriter l w).level = l.level := by
  unfold SetWriter; split <;> rfl

theorem step_level {s s' : State} {c : Call} (h : step s c = some s')
    (hc : Call.isSetLevel c = false) : s'.l.level = s.l.level := by
  cases c with
  | Info ctx now msg =>
    simp only [step, Option.map_eq_some'] at h
    obtain ⟨o, -, rfl⟩ := h
    rfl
  | Warn ctx now msg =>
    simp only [step, Option.map_eq_some'] at h
    obtain ⟨o, -, rfl⟩ := h
    rfl
  | Error ctx now msg =>
    simp only [step, Option.map_eq_some'] at h
    obtain ⟨o, -, rfl⟩ := h
    rfl
  | SetWriter w =>
    simp only [step, Option.some.injEq] at h
    subst h
    exact SetWriter_level s.l w
  | SetLevel level => simp [Call.isSetLevel] at hc

theorem run_level {calls : List Call} : ∀ {s s' : State}, run s calls = some s' →
    (∀ c ∈ calls, Call.isSetLevel c = false) → s'.l.level = s.l.level := by
  induction calls with
  | nil =>
    intro s s' h _
    simp only [run, Option.some.injEq] at h
    subst h
    rfl
  | cons c cs ih =>
    intro s s' h hc
    simp only [run, Option.bind_eq_some] at h
    obtain ⟨s1, h1, h2⟩ := h
    rw [ih h2 (fun c' hc' => hc c' (List.mem_cons_of_mem _ hc')),
      step_level h1 (hc c (List.mem_cons_self _ _))]

theorem AfterSetLevel.level_eq {level : Level} {s : State} (hs : AfterSetLevel level s)
    (h : level = LevelInfo ∨ level = LevelWarn ∨ level = LevelError) : s.l.level = level := by
  obtain ⟨l0, out0, calls, hc, hrun⟩ := hs
  rw [run_level hrun hc]
  exact SetLevel_level_of_mem l0 level h

theorem log_below {l : logger} {level : Level} (h : level < l.level) (out : Sinks)
    (ctx : Option Context) (now : Time) (msg : String) :
    log l out ctx now level msg = some out := by
  simp [log, h]

theorem log_at_or_above {l : logger} {level : Level} {w : Writer} (h : l.level ≤ level)
    (hw : l.writer = some w) (out : Sinks) (ctx : Option Context) (now : Time) (msg : String) :
    log l out ctx now level msg
      = some (appendTo out w
          (formatLine (Time.Format (Time.UTC now) RFC3339) (Level.String level) msg)) := by
  simp [log, not_lt.mpr h, hw, Fprintf]

/-! ## Filtering by level -/

/-- Claim C1: when `SetLevel(L2)` was the last level change and `L1 < L2` are two of
INFO, WARN, ERROR, emitting a message at `L1` (`Info` for INFO, `Warn` for WARN)
returns with every sink holding exactly what it held before the call. -/
theorem emit_below_threshold_writes_nothing (L1 L2 : Level)
    (h1 : L1 = LevelInfo ∨ L1 = LevelWarn ∨ L1 = LevelError)
    (h2 : L2 = LevelInfo ∨ L2 = LevelWarn ∨ L2 = LevelError)
    (hlt : L1 < L2) (s : State) (hs : AfterSetLevel L2 s)
    (ctx : Option Context) (now : Time) (msg : String) :
    log s.l s.out ctx now L1 msg = some s.out ∧
      (L1 = LevelInfo → Info s.l s.out ctx now msg = some s.out) ∧
      (L1 = LevelWarn → Warn s.l s.out ctx now msg = some s.out) := by
  have hlevel : L1 < s.l.level := by rw [hs.level_eq h2]; exact hlt
  refine ⟨log_below hlevel _ _ _ _, ?_, ?_⟩
  · intro h
    subst h
    exact log_below hlevel _ _ _ _
  · intro h
    subst h
    exact log_below hlevel _ _ _ _

theorem warnState_after : AfterSetLevel LevelWarn warnState := by
  refine ⟨NewLogger, fun _ => "",
    [Call.SetWriter (some (Writer.sink 0)), Call.Info none ⟨1705314599, 3600⟩ "boot",
      Call.Warn none ⟨1705314600, 3600⟩ "disk"], ?_, ?_⟩
  · decide
  · rfl

/-- Instance of C1: under threshold WARN, `Info` leaves the sinks as they were. -/
theorem emit_below_threshold_writes_nothing_witness :
    LevelInfo < LevelWarn ∧ AfterSetLevel LevelWarn warnState ∧
      Info warnState.l warnState.out none ⟨1705314601, 3600⟩ "hello"
        = some warnState.out :=
  ⟨by decide, warnState_after,
    (emit_below_threshold_writes_nothing LevelInfo LevelWarn (Or.inl rfl) (Or.inr (Or.inl rfl))
      (by decide) warnState warnState_after none ⟨1705314601, 3600⟩ "hello").2.1 rfl⟩

/-! ## One line per accepted call -/

theorem formatLine_data (timestamp name msg : String) :
    (formatLine timestamp name msg).data
      = timestamp.data ++ ([' ', '['] ++ (name.data ++ ([']', ' '] ++ (msg.data ++ ['\n'])))) := by
  simp [formatLine, String.data_append]

theorem oneLine_formatLine {timestamp name msg : String}
    (ht : '\n' ∉ timestamp.data) (hn : '\n' ∉ name.data) (hm : '\n' ∉ msg.data) :
    oneLine (formatLine timestamp name msg) := by
  refine ⟨?_, ?_⟩
  · have h : (formatLine timestamp name msg).data
        = (timestamp.data ++ ([' ', '['] ++ (name.data ++ ([']', ' '] ++ msg.data)))) ++ ['\n'] := by
      simp [formatLine_data]
    rw [h, List.getLast?_append]
    rfl
  · rw [formatLine_data]
    simp only [List.count_append, List.count_eq_zero_of_not_mem ht,
      List.count_eq_zero_of_not_mem hn, List.count_eq_zero_of_not_mem hm]
    decide

theorem Level.String_no_newline (level : Level) : '\n' ∉ (Level.String level).data := by
  unfold Level.String
  split
  · decide
  · split
    · decide
    · split <;> decide

theorem digitChar_ne_newline (n : Nat) (h : n < 10) : Nat.digitChar n ≠ '\n' := by
  interval_cases n <;> decide

theorem toDigitsCore_no_newline (fuel : Nat) : ∀ (n : Nat) (ds : List Char), '\n' ∉ ds →
    '\n' ∉ Nat.toDigitsCore 10 fuel n ds := by
  induction fuel with
  | zero =>
    intro n ds h
    simpa [Nat.toDigitsCore] using h
  | succ f ih =>
    intro n ds h
    have hd : '\n' ∉ Nat.digitChar (n % 10) :: ds := by
      simp only [List.mem_cons, not_or]
      exact ⟨fun e => digitChar_ne_newline _ (Nat.mod_lt _ (by decide)) e.symm, h⟩
    simp only [Nat.toDigitsCore]
    split
    · exact hd
    · exact ih _ _ hd

theorem appendInt_no_newline (x : Int) (width : Nat) : '\n' ∉ (appendInt x width).data := by
  have hd : '\n' ∉ Nat.toDigits 10 x.natAbs := toDigitsCore_no_newline _ _ _ (by simp)
  simp only [appendInt, List.mem_append, not_or]
  refine ⟨?_, ?_, hd⟩
  · split <;> decide
  · intro h
    exact absurd (List.eq_of_mem_replicate h) (by decide)

theorem appendChunk_no_newline (t : Time) (c : Chunk)
    (hc : ∀ s, c = Chunk.text s → '\n' ∉ s.data) : '\n' ∉ (t.appendChunk c).data := by
  cases c with
  | stdLongYear => exact appendInt_no_newline _ _
  | stdZeroMonth => exact appendInt_no_newline _ _
  | stdZeroDay => exact appendInt_no_newline _ _
  | stdHour => exact appendInt_no_newline _ _
  | stdZeroMinute => exact appendInt_no_newline _ _
  | stdZeroSecond => exact appendInt_no_newline _ _
  | stdISO8601ColonTZ =>
    simp only [Time.appendChunk]
    split
    · decide
    · simp only [String.data_append, List.mem_append, not_or]
      refine ⟨⟨⟨?_, appendInt_no_newline _ _⟩, by decide⟩, appendInt_no_newline _ _⟩
      split <;> decide
  | text s => exact hc s rfl

theorem Format_no_newline (t : Time) (layout : List Chunk)
    (h : ∀ c ∈ layout, ∀ s, c = Chunk.text s → '\n' ∉ s.data) :
    '\n' ∉ (t.Format layout).data := by
  induction layout with
  | nil => simp [Time.Format]
  | cons c cs ih =>
    simp only [Time.Format, String.data_append, List.mem_append, not_or]
    exact ⟨appendChunk_no_newline t c (h c (List.mem_cons_self _ _)),
      ih (fun c' hc' => h c' (List.mem_cons_of_mem _ hc'))⟩

theorem Format_RFC3339_no_newline (t : Time) : '\n' ∉ (t.Format RFC3339).data := by
  apply Format_no_newline
  intro c hc s hs
  subst hs
  simp only [RFC3339, List.mem_cons, Chunk.text.injEq, List.mem_singleton, false_or, or_false,
    reduceCtorEq, List.not_mem_nil] at hc
  rcases hc with rfl | rfl | rfl | rfl | rfl <;> decide

theorem Format_UTC_RFC3339 (now : Time) :
    Time.Format (Time.UTC now) RFC3339 = rfc3339UTC now.sec := by
  simp [Time.Format, RFC3339, Time.appendChunk, Time.UTC, Time.localSec, rfc3339UTC,
    String.append_assoc]

/-- The calendar and the layout on known instants: the epoch, the second before
it, a leap day, and one instant read in UTC and in a location five and a half
hours west of it. -/
theorem Format_RFC3339_examples :
    rfc3339UTC 0 = "1970-01-01T00:00:00Z" ∧
      rfc3339UTC (-1) = "1969-12-31T23:59:59Z" ∧
      rfc3339UTC 951782400 = "2000-02-29T00:00:00Z" ∧
      rfc3339UTC 1705314600 = "2024-01-15T10:30:00Z" ∧
      Time.Format ⟨1705314600, 0⟩ RFC3339 = "2024-01-15T10:30:00Z" ∧
      Time.Format ⟨1705314600, -19800⟩ RFC3339 = "2024-01-15T05:00:00-05:30" ∧
      Time.Format (Time.UTC ⟨1705314600, -19800⟩) RFC3339 = "2024-01-15T10:30:00Z" := by
  refine ⟨?_, ?_, ?_, ?_, ?_, ?_, ?_⟩ <;> rfl

/-- Claim C2, as amended: when `SetLevel(L2)` was the last level change, `L ≥ L2`
are two of INFO, WARN, ERROR, the sink is `w` and the message contains no
newline, emitting the message at `L`, whatever the clock reads, appends one
text to `w` and nothing to any other sink, and that text is exactly one line:
it ends with a newline and contains no other newline. -/
theorem emit_at_or_above_threshold_one_line (L L2 : Level)
    (hL : L = LevelInfo ∨ L = LevelWarn ∨ L = LevelError)
    (h2 : L2 = LevelInfo ∨ L2 = LevelWarn ∨ L2 = LevelError)
    (hge : L2 ≤ L) (s : State) (hs : AfterSetLevel L2 s)
    (w : Writer) (hw : s.l.writer = some w)
    (ctx : Option Context) (now : Time) (msg : String) (hm : '\n' ∉ msg.data) :
    ∃ line : String, oneLine line ∧
      log s.l s.out ctx now L msg = some (appendTo s.out w line) ∧
      (L = LevelInfo → Info s.l s.out ctx now msg = some (appendTo s.out w line)) ∧
      (L = LevelWarn → Warn s.l s.out ctx now msg = some (appendTo s.out w line)) ∧
      (L = LevelError → Error s.l s.out ctx now msg = some (appendTo s.out w line)) := by
  have hlevel : s.l.level ≤ L := by rw [hs.level_eq h2]; exact hge
  refine ⟨formatLine (Time.Format (Time.UTC now) RFC3339) (Level.String L) msg,
    oneLine_formatLine (Format_RFC3339_no_newline _) (Level.String_no_newline L) hm,
    log_at_or_above hlevel hw _ _ _ _, ?_, ?_, ?_⟩
  · intro h
    subst h
    exact log_at_or_above hlevel hw _ _ _ _
  · intro h
    subst h
    exact log_at_or_above hlevel hw _ _ _ _
  · intro h
    subst h
    exact log_at_or_above hlevel hw _ _ _ _

/-- Instance of C2 as amended: under threshold WARN, `Error` with a message
without newline appends exactly one line to sink 0. -/
theorem emit_at_or_above_threshold_one_line_witness :
    LevelWarn ≤ LevelError ∧ AfterSetLevel LevelWarn warnState ∧
      warnState.l.writer = some (Writer.sink 0) ∧ '\n' ∉ "hello".data ∧
      ∃ line : String, oneLine line ∧
        Error warnState.l warnState.out none ⟨1705314601, 3600⟩ "hello"
          = some (appendTo warnState.out (Writer.sink 0) line) :=
  ⟨by decide, warnState_after, rfl, by decide,
    (emit_at_or_above_threshold_one_line LevelError LevelWarn (Or.inr (Or.inr rfl))
      (Or.inr (Or.inl rfl)) (by decide) warnState warnState_after (Writer.sink 0) rfl none
      ⟨1705314601, 3600⟩ "hello" (by decide)).imp
      fun _ h => ⟨h.1, h.2.2.2.2 rfl⟩⟩

/-- Claim C2 fails as stated: with threshold INFO, `Info` with the message
`"a\nb"` at 2024-01-15T10:30:00Z appends a text to standard output that holds
two newlines, so it is not one line. -/
theorem emit_multiline_message_counterexample :
    AfterSetLevel LevelInfo infoState ∧
      Info infoState.l infoState.out none ⟨1705314600, 0⟩ "a\nb"
        = some (appendTo infoState.out Writer.stdout "2024-01-15T10:30:00Z [INFO] a\nb\n") ∧
      ("2024-01-15T10:30:00Z [INFO] a\nb\n").data.count '\n' = 2 ∧
      ¬ oneLine "2024-01-15T10:30:00Z [INFO] a\nb\n" := by
  refine ⟨⟨NewLogger, fun _ => "", [], by decide, rfl⟩, ?_, by decide, by decide⟩
  rfl

/-! ## Format of the line -/

theorem formatLine_eq (timestamp name msg : String) :
    formatLine timestamp name msg = timestamp ++ (" [" ++ name ++ "] ") ++ msg ++ "\n" := by
  simp [formatLine, String.append_assoc]

/-- Claim C3: on a logger whose sink is `w`, an emit call at a level at or above
the threshold appends to `w`, and to no other sink, exactly the timestamp, a
blank, the level name between brackets (`INFO` for `Info`, `WARN` for `Warn`,
`ERROR` for `Error`), a blank, the message and a newline, where the timestamp
is the RFC 3339 rendering in UTC of the instant the clock reads during the
call, whatever the location of that reading: it is what `Format` with layout
`RFC3339` gives for the reading taken to UTC.  With threshold INFO and message
`hello`, `Info` appends the timestamp followed by ` [INFO] hello` and a
newline. -/
theorem emit_appends_formatted_line (s : State) (w : Writer) (hw : s.l.writer = some w)
    (ctx : Option Context) (now : Time) (msg : String) :
    (s.l.level ≤ LevelInfo → Info s.l s.out ctx now msg
        = some (appendTo s.out w (rfc3339UTC now.sec ++ " [INFO] " ++ msg ++ "\n"))) ∧
      (s.l.level ≤ LevelWarn → Warn s.l s.out ctx now msg
        = some (appendTo s.out w (rfc3339UTC now.sec ++ " [WARN] " ++ msg ++ "\n"))) ∧
      (s.l.level ≤ LevelError → Error s.l s.out ctx now msg
        = some (appendTo s.out w (rfc3339UTC now.sec ++ " [ERROR] " ++ msg ++ "\n"))) ∧
      (s.l.level = LevelInfo → Info s.l s.out ctx now "hello"
        = some (appendTo s.out w (rfc3339UTC now.sec ++ " [INFO] hello\n"))) ∧
      rfc3339UTC now.sec = Time.Format (Time.UTC now) RFC3339 := by
  refine ⟨?_, ?_, ?_, ?_, (Format_UTC_RFC3339 now).symm⟩
  · intro h
    rw [Info, log_at_or_above h hw, formatLine_eq, Format_UTC_RFC3339]
    rfl
  · intro h
    rw [Warn, log_at_or_above h hw, formatLine_eq, Format_UTC_RFC3339]
    rfl
  · intro h
    rw [Error, log_at_or_above h hw, formatLine_eq, Format_UTC_RFC3339]
    rfl
  · intro h
    have e : rfc3339UTC now.sec ++ (" [" ++ Level.String LevelInfo ++ "] ") ++ "hello" ++ "\n"
        = rfc3339UTC now.sec ++ " [INFO] hello\n" := by
      rw [String.append_assoc, String.append_assoc]
      rfl
    rw [Info, log_at_or_above (le_of_eq h) hw, formatLine_eq, Format_UTC_RFC3339, e]

/-- Instance of C3: under threshold WARN, `Error` called when a clock one hour
east of UTC reads 11:30:01 on 2024-01-15 appends the line stamped
`2024-01-15T10:30:01Z` to sink 0. -/
theorem emit_appends_formatted_line_witness :
    warnState.l.writer = some (Writer.sink 0) ∧ warnState.l.level ≤ LevelError ∧
      Error warnState.l warnState.out none ⟨1705314601, 3600⟩ "hello"
        = some (appendTo warnState.out (Writer.sink 0) "2024-01-15T10:30:01Z [ERROR] hello\n") :=
  ⟨rfl, by decide,
    (emit_appends_formatted_line warnState (Writer.sink 0) rfl none
      ⟨1705314601, 3600⟩ "hello").2.2.1 (by decide)⟩

/-! ## Clamping of the threshold -/

/-- Claim C4: on every logger state, `SetLevel` with a value below INFO yields the
state `SetLevel(INFO)` yields, and with a value above ERROR the state
`SetLevel(ERROR)` yields. -/
theorem SetLevel_out_of_range (l : logger) (v : Level) :
    (v < LevelInfo → SetLevel l v = SetLevel l LevelInfo) ∧
      (v > LevelError → SetLevel l v = SetLevel l LevelError) := by
  constructor
  · intro h
    simp only [SetLevel, LevelInfo, LevelError] at h ⊢
    simp [h]
  · intro h
    simp only [SetLevel, LevelInfo, LevelError, gt_iff_lt] at h ⊢
    have h1 : ¬ v < 1 := not_lt.mpr (le_trans (by decide) (le_of_lt h))
    simp [h, h1]

/-- Instance of C4: `SetLevel(-5)` is `SetLevel(INFO)` and `SetLevel(99)` is `SetLevel(ERROR)`. -/
theorem SetLevel_out_of_range_witness :
    SetLevel NewLogger (-5) = SetLevel NewLogger LevelInfo ∧
      SetLevel NewLogger 99 = SetLevel NewLogger LevelError :=
  ⟨(SetLevel_out_of_range NewLogger (-5)).1 (by decide),
    (SetLevel_out_of_range NewLogger 99).2 (by decide)⟩

/-! ## Invariant of the logger state -/

theorem Valid_NewLogger : Valid NewLogger := by
  refine ⟨?_, ?_, ?_⟩ <;> simp [NewLogger, LevelInfo, LevelError]

theorem Valid_SetWriter {l : logger} (h : Valid l) (w : Option Writer) :
    Valid (SetWriter l w) := by
  obtain ⟨h1, h2, -⟩ := h
  unfold SetWriter
  split
  · exact ⟨h1, h2, by simp⟩
  · exact ⟨h1, h2, by assumption⟩

theorem Valid_SetLevel {l : logger} (h : Valid l) (level : Level) :
    Valid (SetLevel l level) := by
  obtain ⟨-, -, h3⟩ := h
  have key : ∀ v : Int,
      (1 : Int) ≤ (if (if v < 1 then 1 else v) > 3 then 3 else if v < 1 then 1 else v) ∧
        (if (if v < 1 then 1 else v) > 3 then 3 else if v < 1 then 1 else v) ≤ (3 : Int) := by
    intro v
    split_ifs <;> omega
  exact ⟨(key level).1, (key level).2, h3⟩

theorem log_isSome {l : logger} (h : Valid l) (out : Sinks) (ctx : Option Context)
    (now : Time) (level : Level) (msg : String) :
    ∃ out', log l out ctx now level msg = some out' := by
  obtain ⟨w, hw⟩ := Option.ne_none_iff_exists'.mp h.2.2
  unfold log
  split
  · exact ⟨_, rfl⟩
  · exact ⟨_, by rw [hw]; rfl⟩

theorem step_Valid {s : State} (h : Valid s.l) (c : Call) :
    ∃ s', step s c = some s' ∧ Valid s'.l := by
  cases c with
  | Info ctx now msg =>
    obtain ⟨o, ho⟩ := log_isSome h s.out ctx now LevelInfo msg
    exact ⟨{ s with out := o }, by simp [step, Info, ho], h⟩
  | Warn ctx now msg =>
    obtain ⟨o, ho⟩ := log_isSome h s.out ctx now LevelWarn msg
    exact ⟨{ s with out := o }, by simp [step, Warn, ho], h⟩
  | Error ctx now msg =>
    obtain ⟨o, ho⟩ := log_isSome h s.out ctx now LevelError msg
    exact ⟨{ s with out := o }, by simp [step, Error, ho], h⟩
  | SetWriter w => exact ⟨_, rfl, Valid_SetWriter h w⟩
  | SetLevel level => exact ⟨_, rfl, Valid_SetLevel h level⟩

theorem run_Valid (calls : List Call) : ∀ {s : State}, Valid s.l →
    ∃ s', run s calls = some s' ∧ Valid s'.l := by
  induction calls with
  | nil => exact fun {s} h => ⟨s, rfl, h⟩
  | cons c cs ih =>
    intro s h
    obtain ⟨s1, h1, hv1⟩ := step_Valid h c
    obtain ⟨s2, h2, hv2⟩ := ih hv1
    exact ⟨s2, by simp [run, h1, h2], hv2⟩

/-- Claim C5: every finite sequence of `SetLevel`, `SetWriter`, `Info`, `Warn` and
`Error` calls, with any arguments, on a new logger runs to a state whose
threshold lies between INFO and ERROR and whose sink is not nil; and
`SetWriter(nil)` sets the sink to standard output. -/
theorem reachable_state_valid (out0 : Sinks) (calls : List Call) :
    (∃ s : State, run { l := NewLogger, out := out0 } calls = some s ∧
        LevelInfo ≤ s.l.level ∧ s.l.level ≤ LevelError ∧ s.l.writer ≠ none) ∧
      (∀ s : State, run { l := NewLogger, out := out0 } calls = some s →
        (SetWriter s.l none).writer = some Writer.stdout) := by
  refine ⟨run_Valid calls (s := { l := NewLogger, out := out0 }) Valid_NewLogger, ?_⟩
  intro s _
  simp [SetWriter]

/-! ## Attaching a logger to a context and finding it again -/

theorem FromContext_of_logger {c : Context} {p : Ptr}
    (h : c.Value Key.ctxKey = Value.logger p) : FromContext (some c) = some p := by
  simp [FromContext, h, assertLogger]

theorem FromContext_of_not_logger {c : Context}
    (h : ∀ p, c.Value Key.ctxKey ≠ Value.logger p) : FromContext (some c) = defaultLogger := by
  unfold FromContext
  cases hv : c.Value Key.ctxKey with
  | nil => simp [assertLogger]
  | logger p => exact absurd hv (h p)
  | other id => simp [assertLogger]

theorem valueCtx_ne_parent (c : Context) (key : Key) (val : Value) :
    Context.valueCtx c key val ≠ c := by
  intro h
  have hs := congrArg sizeOf h
  simp at hs
  omega

/-- Claim C6: for every non-nil context `c` and non-nil logger `p`, `WithLogger`
returns a new context, a value node whose parent is `c` itself, from which
`FromContext` returns exactly `p`; the new context differs from `c` and carries
under every other key what `c` carries, and `c`, a value that no call modifies,
still yields the logger it yielded (the default one when it carries none). -/
theorem FromContext_WithLogger (c : Context) (p : Ptr) :
    ∃ c' : Context, WithLogger (some c) (some p) = some (some c') ∧
      FromContext (some c') = some p ∧
      c' = Context.valueCtx c Key.ctxKey (Value.logger p) ∧
      c' ≠ c ∧
      (∀ key, key ≠ Key.ctxKey → c'.Value key = c.Value key) ∧
      (∀ q, c.Value Key.ctxKey = Value.logger q → FromContext (some c) = some q) ∧
      ((∀ q, c.Value Key.ctxKey ≠ Value.logger q) → FromContext (some c) = defaultLogger) := by
  refine ⟨Context.valueCtx c Key.ctxKey (Value.logger p), rfl, ?_, rfl,
    valueCtx_ne_parent c _ _, ?_, fun q h => FromContext_of_logger h,
    FromContext_of_not_logger⟩
  · exact FromContext_of_logger (by simp [Context.Value])
  · intro key hk
    simp [Context.Value, Ne.symm hk]

/-- Instance of C6: a logger attached to a context that already carries another one. -/
theorem FromContext_WithLogger_witness :
    WithLogger (some (Context.valueCtx Context.background Key.ctxKey (Value.logger ⟨7⟩)))
        (some ⟨9⟩)
      = some (some (Context.valueCtx
          (Context.valueCtx Context.background Key.ctxKey (Value.logger ⟨7⟩))
          Key.ctxKey (Value.logger ⟨9⟩))) ∧
      FromContext (some (Context.valueCtx
          (Context.valueCtx Context.background Key.ctxKey (Value.logger ⟨7⟩))
          Key.ctxKey (Value.logger ⟨9⟩))) = some ⟨9⟩ ∧
      FromContext (some (Context.valueCtx Context.background Key.ctxKey (Value.logger ⟨7⟩)))
        = some ⟨7⟩ := by
  obtain ⟨c', h1, h2, h3, -, -, h6, -⟩ :=
    FromContext_WithLogger (Context.valueCtx Context.background Key.ctxKey (Value.logger ⟨7⟩)) ⟨9⟩
  subst h3
  exact ⟨h1, h2, h6 ⟨7⟩ rfl⟩

/-- Claim C7: `FromContext` returns the default logger for the nil context, for
every context that carries no value under `ctxKey` and for every context whose
value under `ctxKey` is not a `Logger`; the default logger is not nil and, for
every context, the logger returned is not nil. -/
theorem FromContext_default :
    FromContext none = defaultLogger ∧
      (∀ c : Context, c.Value Key.ctxKey = Value.nil → FromContext (some c) = defaultLogger) ∧
      (∀ (c : Context) (id : Nat), c.Value Key.ctxKey = Value.other id →
        FromContext (some c) = defaultLogger) ∧
      defaultLogger ≠ none ∧
      (∀ ctx : Option Context, FromContext ctx ≠ none) := by
  refine ⟨rfl, ?_, ?_, by simp [defaultLogger], ?_⟩
  · intro c h
    exact FromContext_of_not_logger (by simp [h])
  · intro c id h
    exact FromContext_of_not_logger (by simp [h])
  · intro ctx
    cases ctx with
    | none => simp [FromContext, defaultLogger]
    | some c =>
      cases hv : c.Value Key.ctxKey with
      | nil => rw [FromContext_of_not_logger (by simp [hv])]; simp [defaultLogger]
      | logger p => rw [FromContext_of_logger hv]; simp
      | other id => rw [FromContext_of_not_logger (by simp [hv])]; simp [defaultLogger]

/-- Instance of C7: a context without logger, and one whose value under `ctxKey`
is not a logger, both give the default logger. -/
theorem FromContext_default_witness :
    FromContext (some (Context.cancelCtx
        (Context.valueCtx Context.background (Key.other 1) (Value.logger ⟨7⟩))))
      = defaultLogger ∧
      FromContext (some (Context.valueCtx Context.background Key.ctxKey (Value.other 4)))
        = defaultLogger :=
  ⟨FromContext_default.2.1 _ rfl, FromContext_default.2.2.1 _ 4 rfl⟩

/-- Claim C8: for every context, nil included, `WithLogger(ctx, nil)` returns `ctx`
itself, so `FromContext` gives on the result what it gives on `ctx`: the
default logger when `ctx` carries no logger. -/
theorem WithLogger_nil (ctx : Option Context) :
    WithLogger ctx none = some ctx ∧
      (WithLogger ctx none).map FromContext = some (FromContext ctx) ∧
      ((∀ (c : Context) (p : Ptr), ctx = some c → c.Value Key.ctxKey ≠ Value.logger p) →
        (WithLogger ctx none).map FromContext = some defaultLogger) := by
  refine ⟨rfl, rfl, ?_⟩
  intro h
  cases ctx with
  | none => rfl
  | some c =>
    show some (FromContext (some c)) = some defaultLogger
    rw [FromContext_of_not_logger (fun p => h c p rfl)]

/-- Instance of C8: attaching nil to the background context. -/
theorem WithLogger_nil_witness :
    WithLogger (some Context.background) none = some (some Context.background) ∧
      (WithLogger (some Context.background) none).map FromContext = some defaultLogger :=
  ⟨(WithLogger_nil (some Context.background)).1,
    (WithLogger_nil (some Context.background)).2.2 (by
      intro c p h
      cases h
      simp [Context.Value])⟩

/-! ## The handler decorator -/

/-- Claim C9: for every non-nil logger `p`, response writer `w` and request `r`,
whatever the context of `r` carries, there is a request `r'`, equal to `r` but
for its context, from whose context `FromContext` returns `p`, such that
running the decorated handler is running the handler once on `w` and `r'`:
for every handler the two have the same effect, and a handler that records its
calls records the single call `(w, r')`. -/
theorem HandlerWithLogger_calls_handler (p : Ptr) (w : ResponseWriter) (r : Request) :
    ∃ r' : Request, FromContext r'.Context = some p ∧ r'.rest = r.rest ∧
      (∀ (σ : Type) (handler : HandlerFunc σ) (st : σ),
        HandlerWithLogger (some p) handler w r st = handler w r' st) ∧
      HandlerWithLogger (some p) (fun w0 r0 calls => some (calls ++ [(w0, r0)])) w r []
        = some [(w, r')] := by
  cases hc : r.ctx with
  | none =>
    refine ⟨{ r with ctx := some (Context.valueCtx Context.background Key.ctxKey
      (Value.logger p)) }, ?_, rfl, ?_, ?_⟩
    · simp [Request.Context, FromContext, Context.Value, assertLogger]
    · intro σ handler st
      simp [HandlerWithLogger, Request.Context, hc, WithLogger, WithValue,
        LoggerIface.toValue, Request.WithContext]
    · simp [HandlerWithLogger, Request.Context, hc, WithLogger, WithValue,
        LoggerIface.toValue, Request.WithContext]
  | some c =>
    refine ⟨{ r with ctx := some (Context.valueCtx c Key.ctxKey (Value.logger p)) },
      ?_, rfl, ?_, ?_⟩
    · simp [Request.Context, FromContext, Context.Value, assertLogger]
    · intro σ handler st
      simp [HandlerWithLogger, Request.Context, hc, WithLogger, WithValue,
        LoggerIface.toValue, Request.WithContext]
    · simp [HandlerWithLogger, Request.Context, hc, WithLogger, WithValue,
        LoggerIface.toValue, Request.WithContext]

end Logger
